import Mathlib

/-!
Shallow embedding of the KiCad-wakatime heartbeat core
(`kicad_wakatime.py`): the user-activity tracker, the heartbeat
scheduler (`send_heartbeat`), and the window classifier
(`get_active_kicad_window`) with its two title patterns.

Timestamps (`time.time()` values) are modelled as integers; the only
operations the code performs on them are subtraction and order
comparison.  The project-directory resolver (`get_curr_prj_dir`) and
the OS window inspector are external collaborators and are passed in
as parameters.
-/

set_option linter.unusedVariables false

/-- Embedding of `UserActivityTracker.__init__` state
(`kicad_wakatime.py` lines 27-53): `last_activity_time` is set from
the clock, `is_active` starts true, `tracking_enabled` records whether
the pynput capability was available at construction. -/
structure UserActivityTracker where
  last_activity_time : Int
  inactivity_threshold : Int
  is_active : Bool
  tracking_enabled : Bool
deriving Repr, DecidableEq

/-- `UserActivityTracker.__init__(inactivity_threshold)` at clock time
`now`, with `available = ACTIVITY_TRACKING_AVAILABLE`.  Construction is
total: a missing input-listening capability only clears
`tracking_enabled`. -/
def UserActivityTracker.init (available : Bool) (threshold now : Int) :
    UserActivityTracker :=
  { last_activity_time := now
    inactivity_threshold := threshold
    is_active := true
    tracking_enabled := available }

/-- `UserActivityTracker.on_activity` (lines 55-60): any input event
stores the clock and sets the active flag. -/
def on_activity (now : Int) (t : UserActivityTracker) : UserActivityTracker :=
  { t with last_activity_time := now, is_active := true }

/-- `UserActivityTracker.check_activity` (lines 62-82): if tracking is
disabled, report active and leave the state alone; otherwise clear
`is_active` when the elapsed time strictly exceeds the threshold, and
return the (possibly updated) flag. -/
def check_activity (now : Int) (t : UserActivityTracker) :
    Bool × UserActivityTracker :=
  if t.tracking_enabled = false then
    (true, t)
  else
    let time_since_activity := now - t.last_activity_time
    if time_since_activity > t.inactivity_threshold then
      (false, { t with is_active := false })
    else
      (t.is_active, t)

/-- `UserActivityTracker.get_time_since_activity` (lines 84-90). -/
def get_time_since_activity (now : Int) (t : UserActivityTracker) : Int :=
  if t.tracking_enabled = false then 0
  else now - t.last_activity_time

/-- Iterated `check_activity` queries at the given clock times,
collecting each returned flag: the trace semantics of the poll loop
repeatedly asking the tracker whether the user is active. -/
def runChecks (t : UserActivityTracker) : List Int → UserActivityTracker × List Bool
  | [] => (t, [])
  | n :: ns =>
    let r := check_activity n t
    let rest := runChecks r.2 ns
    (rest.1, r.1 :: rest.2)

/-- Mutable state of `KiCadWakaTime` used by `send_heartbeat`
(`kicad_wakatime.py` lines 99-107): `last_heartbeat_at` starts at
epoch zero, `last_file` at `None`, `heartbeat_frequency = 60`. -/
structure KiCadWakaTime where
  last_heartbeat_at : Int
  last_file : Option String
  heartbeat_frequency : Int
  dry_run : Bool
  activity_tracker : UserActivityTracker
deriving Repr, DecidableEq

/-- Embedding of `KiCadWakaTime.send_heartbeat` (lines 272-315).
Inputs beyond the object state: `cliExists` is the per-tick
`os.path.exists(self.wakatime_cli)` probe, `spawnOk` is whether the
`subprocess.Popen` spawn of the external sender succeeds (the code
catches its exception), `(file, project_name)` is the classified file
info and `now` is `time.time()`.  Result: the new object state, the
decision Bool (whether the send branch was taken) and whether an
external dispatch actually succeeded (always false in dry-run; a
spawn failure is swallowed by the `except` and only affects this
flag, never the state). -/
def send_heartbeat (cliExists spawnOk : Bool) (file project_name : String)
    (now : Int) (st : KiCadWakaTime) : KiCadWakaTime × Bool × Bool :=
  if cliExists = false ∧ st.dry_run = false then
    (st, false, false)
  else
    let r := check_activity now st.activity_tracker
    let is_user_active := r.1
    let st1 := { st with activity_tracker := r.2 }
    if some file ≠ st1.last_file ∨
        (now - st1.last_heartbeat_at > st1.heartbeat_frequency ∧ is_user_active = true) then
      let st2 := { st1 with last_heartbeat_at := now, last_file := some file }
      if st2.dry_run then (st2, true, false)
      else (st2, true, spawnOk)
    else
      (st1, false, false)

/-! ## Window classifier (`get_active_kicad_window`, lines 209-270)

The two `re.search` patterns are transcribed as explicit backtracking
matchers over `List Char`.  `re.search` tries each start position from
the left and returns the first position at which the pattern matches;
alternatives are tried in their written order and `+` quantifiers
munch maximally and then give back one character at a time.  For both
patterns every point where the Python engine could backtrack is either
reproduced literally (chunk length, extension alternative, optional
leading star, the give-back of a whitespace run before `(.+)`) or is
provably deterministic: a `\s+` run followed by a required
non-whitespace literal can only succeed with the maximal run, because
every character it could give back is a whitespace character and hence
not the literal. -/

/-- Python `\s` on the characters that occur in window titles: the
ASCII whitespace class of `re` (space, tab, newline, carriage return,
vertical tab, form feed). -/
def isPySpace (c : Char) : Bool :=
  c = ' ' || c = '\t' || c = '\n' || c = '\r' || c = '\x0b' || c = '\x0c'

/-- The em-dash used by the modern title format. -/
def emDash : Char := '—'

/-- Character class `[^\s—]` of the modern pattern's project-name
capture group. -/
def isTokenChar (c : Char) : Bool :=
  !isPySpace c && c != emDash

/-- Character class `[^\s/\\]` of the legacy pattern's filename chunk. -/
def isChunkChar (c : Char) : Bool :=
  !isPySpace c && c != '/' && c != '\\'

/-- Consume `\s+` greedily: fails unless the text starts with a
whitespace character, otherwise drops the maximal whitespace run. -/
def wsThen (s : List Char) : Option (List Char) :=
  match s with
  | [] => none
  | c :: _ => if isPySpace c then some (s.dropWhile isPySpace) else none

/-- The recognized document extensions of the legacy pattern
`(kicad_pcb|sch|kicad_sch|kicad_pro)`, in alternation order. -/
def legacyExts : List (List Char) :=
  ["kicad_pcb".toList, "sch".toList, "kicad_sch".toList, "kicad_pro".toList]

/-- The legacy pattern's trailing separator `(?:\s+-\s+|\s+\[\*\]\s+-\s+)`:
either whitespace, a hyphen and whitespace, or whitespace, `[*]`,
whitespace, a hyphen and whitespace. -/
def sepMatch (s : List Char) : Bool :=
  (match wsThen s with
   | some ('-' :: r) => (wsThen r).isSome
   | _ => false)
  ||
  (match wsThen s with
   | some ('[' :: '*' :: ']' :: r) =>
     (match wsThen r with
      | some ('-' :: r2) => (wsThen r2).isSome
      | _ => false)
   | _ => false)

/-- Try the extension alternatives in order at the text following the
dot; each must be a literal prefix and be followed by the separator. -/
def legacyTryExts : List (List Char) → List Char → Option (List Char)
  | [], _ => none
  | e :: es, s =>
    if e.isPrefixOf s && sepMatch (s.drop e.length) then some e
    else legacyTryExts es s

/-- Backtrack the `[^\s/\\]+` chunk from length `j` down to 1: for
each length the next character must be the literal dot, then an
extension alternative and the separator must follow.  Returns the
whole-match capture group `([^\s/\\]+\.(…))` on success. -/
def legacyChunkLoop : Nat → List Char → Option (List Char)
  | 0, _ => none
  | j + 1, s =>
    match s.drop (j + 1) with
    | '.' :: after =>
      (match legacyTryExts legacyExts after with
       | some e => some (s.take (j + 1) ++ '.' :: e)
       | none => legacyChunkLoop j s)
    | _ => legacyChunkLoop j s

/-- Match the legacy pattern anchored at the head of `s`. -/
def legacyMatchAt (s : List Char) : Option (List Char) :=
  legacyChunkLoop (s.takeWhile isChunkChar).length s

/-- `re.search` of the legacy pattern
`([^\s/\\]+\.(kicad_pcb|sch|kicad_sch|kicad_pro))(?:\s+-\s+|\s+\[\*\]\s+-\s+)`
(line 234): leftmost matching position wins; returns group 1. -/
def legacySearch : List Char → Option (List Char)
  | [] => none
  | c :: rest =>
    match legacyMatchAt (c :: rest) with
    | some g => some g
    | none => legacySearch rest

/-- The tail `\s+(.+)` after the em-dash: give back the maximal
whitespace run one character at a time until a character that `.`
accepts (anything but a newline) starts the greedy `(.+)` group. -/
def modernTailLoop : Nat → List Char → Option (List Char)
  | 0, _ => none
  | k + 1, s =>
    match s.drop (k + 1) with
    | c :: _ =>
      if c = '\n' then modernTailLoop k s
      else some ((s.drop (k + 1)).takeWhile (fun d => d != '\n'))
    | [] => modernTailLoop k s

/-- Match `\s+—\s+(.+)` at the text following the project-name group:
whitespace, the em-dash literal, then `modernTailLoop`.  Returns
group 3. -/
def modernAfterG2 (s : List Char) : Option (List Char) :=
  match wsThen s with
  | some (c :: rest) =>
    if c = emDash then
      modernTailLoop ((rest.takeWhile isPySpace).length) rest
    else none
  | _ => none

/-- Match `([^\s—]+)\s+—\s+(.+)` at the head of `s` (the part of the
modern pattern after the optional star).  Returns groups 2 and 3. -/
def modernNoStar (s : List Char) : Option (List Char × List Char) :=
  let g2 := s.takeWhile isTokenChar
  if g2.length = 0 then none
  else
    match modernAfterG2 (s.dropWhile isTokenChar) with
    | some g3 => some (g2, g3)
    | none => none

/-- Match the modern pattern `(\*?)([^\s—]+)\s+—\s+(.+)` anchored at
the head of `s`: the optional star is consumed first and given back if
the remainder fails.  Returns groups 1, 2 and 3. -/
def modernMatchAt (s : List Char) : Option (List Char × List Char × List Char) :=
  match s with
  | [] => none
  | c :: rest =>
    if c = '*' then
      match modernNoStar rest with
      | some (g2, g3) => some (['*'], g2, g3)
      | none =>
        match modernNoStar s with
        | some (g2, g3) => some ([], g2, g3)
        | none => none
    else
      match modernNoStar s with
      | some (g2, g3) => some ([], g2, g3)
      | none => none

/-- `re.search` of the modern pattern `(\*?)([^\s—]+)\s+—\s+(.+)`
(line 242): leftmost matching position wins. -/
def modernSearch : List Char → Option (List Char × List Char × List Char)
  | [] => none
  | c :: rest =>
    match modernMatchAt (c :: rest) with
    | some g => some g
    | none => modernSearch rest

/-- Python `str.strip()` restricted to the whitespace class above. -/
def pyStrip (s : List Char) : List Char :=
  ((s.dropWhile isPySpace).reverse.dropWhile isPySpace).reverse

/-- Python `str.lower()` (ASCII case mapping suffices here). -/
def pyLower (s : String) : String :=
  String.mk (s.toList.map Char.toLower)

/-- Python `str(x)` on the resolver result: `str(None)` is the string
`"None"` (line 248 applies `str` to `get_curr_prj_dir`'s result). -/
def pyStrOpt : Option String → String
  | none => "None"
  | some s => s

/-- `os.path.splitext(p)[0]` (Windows flavour: separators `\\` and
`/`, extension separator `.`): the last index of `c` in `s`, or `-1`. -/
def pyRfind (s : List Char) (c : Char) : Int :=
  (s.foldl
    (fun acc ch =>
      (if ch = c then ((acc.2 : Int), acc.2 + 1) else (acc.1, acc.2 + 1)))
    ((-1 : Int), (0 : Nat))).1

/-- `os.path.splitext(filename)[0]`: split at the last dot after the
last path separator, unless every character between the separator and
that dot is itself a dot (the leading-dots rule of `genericpath`). -/
def splitextRoot (f : String) : String :=
  let p := f.toList
  let sepIndex := max (pyRfind p '\\') (pyRfind p '/')
  let dotIndex := pyRfind p '.'
  if dotIndex > sepIndex then
    if (List.range p.length).all
        (fun i => !(decide ((sepIndex < (i : Int) ∧ (i : Int) < dotIndex) ∧ p.getD i ' ' ≠ '.'))) then
      f
    else
      String.mk (p.take dotIndex.toNat)
  else f

/-- The executable-name fragments of line 223. -/
def kicadExeKeys : List String :=
  ["kicad", "pcbnew", "eeschema", "pcb_editor", "sch_editor"]

/-- The window-title fragments of line 228. -/
def kicadTitleKeys : List String :=
  ["KiCad", "PCB Editor", "Eeschema", "Schematic Editor", "PCBNew",
   "Symbol Editor", "Footprint Editor"]

/-- `needle` occurs as a contiguous run somewhere in the list. -/
def hasSubstring (needle : List Char) : List Char → Bool
  | [] => needle.isEmpty
  | c :: t => needle.isPrefixOf (c :: t) || hasSubstring needle t

/-- Python `needle in hay` on strings: contiguous substring test. -/
def containsSub (hay needle : String) : Bool :=
  hasSubstring needle.toList hay.toList

/-- The editor-type → extension ladder of lines 251-262, by substring
containment tried in the written order; an unrecognized editor type
appends nothing. -/
def extForEditorType (editor_type : String) : String :=
  if containsSub editor_type "PCB Editor" then ".kicad_pcb"
  else if containsSub editor_type "Schematic Editor" then ".kicad_sch"
  else if containsSub editor_type "KiCad" then ".kicad_pro"
  else if containsSub editor_type "Symbol Editor" then ".kicad_sym"
  else if containsSub editor_type "Footprint Editor" then ".kicad_mod"
  else ""

/-- Embedding of `KiCadWakaTime.get_active_kicad_window`
(lines 209-270), with the foreground window's title and (lowercased at
the call, as the code lowercases `process.name()`) executable name as
inputs and the project-directory resolver `resolve`
(`get_curr_prj_dir`, an external filesystem lookup) as a parameter.
Returns the `(file, project_name)` pair or `none`. -/
def get_active_kicad_window (resolve : String → Option String)
    (window_title exe_name : String) : Option (String × String) :=
  let is_kicad_exe := kicadExeKeys.any (fun k => containsSub (pyLower exe_name) k)
  let is_kicad_title := kicadTitleKeys.any (fun k => containsSub window_title k)
  if is_kicad_title || is_kicad_exe then
    match legacySearch window_title.toList with
    | some g =>
      let filename := String.mk g
      some (filename, splitextRoot filename)
    | none =>
      match modernSearch window_title.toList with
      | some (_g1, g2, g3) =>
        let project_name := String.mk (pyStrip g2)
        let editor_type := String.mk (pyStrip g3)
        let file_path := pyStrOpt (resolve project_name) ++ "\\" ++ project_name
        some (file_path ++ extForEditorType editor_type, project_name)
      | none => none
  else none

/-! ## Helper lemmas -/

theorem check_activity_false_state (t : UserActivityTracker) (now : Int)
    (he : t.tracking_enabled = true) (h : (check_activity now t).1 = false) :
    (check_activity now t).2.is_active = false ∧
      (check_activity now t).2.tracking_enabled = true := by
  simp only [check_activity, he] at h ⊢
  by_cases hts : now - t.last_activity_time > t.inactivity_threshold
  · simp [hts, he]
  · simp [hts] at h
    simp [hts, h, he]

theorem runChecks_all_false :
    ∀ (ns : List Int) (t : UserActivityTracker),
      t.tracking_enabled = true → t.is_active = false →
      ∀ b ∈ (runChecks t ns).2, b = false := by
  intro ns
  induction ns with
  | nil => intro t _ _ b hb; simp [runChecks] at hb
  | cons n ns ih =>
    intro t he hia b hb
    simp only [runChecks, List.mem_cons] at hb
    have hstep : (check_activity n t).1 = false ∧
        (check_activity n t).2.is_active = false ∧
        (check_activity n t).2.tracking_enabled = true := by
      simp only [check_activity, he]
      by_cases hts : n - t.last_activity_time > t.inactivity_threshold
      · simp [hts, he]
      · simp [hts, he, hia]
    rcases hb with hb | hb
    · rw [hb]; exact hstep.1
    · exact ih (check_activity n t).2 hstep.2.2 hstep.2.1 b hb

theorem takeWhile_append_all {α : Type} (p : α → Bool) (l r : List α)
    (h : ∀ c ∈ l, p c = true) :
    (l ++ r).takeWhile p = l ++ r.takeWhile p := by
  induction l with
  | nil => simp
  | cons a t ih =>
    have ha := h a (by simp)
    simp [List.takeWhile_cons, ha, ih (fun c hc => h c (by simp [hc]))]

theorem dropWhile_append_all {α : Type} (p : α → Bool) (l r : List α)
    (h : ∀ c ∈ l, p c = true) :
    (l ++ r).dropWhile p = r.dropWhile p := by
  induction l with
  | nil => simp
  | cons a t ih =>
    have ha := h a (by simp)
    simp [List.dropWhile_cons, ha, ih (fun c hc => h c (by simp [hc]))]

theorem isTokenChar_spec (c : Char) (h : isTokenChar c = true) :
    isPySpace c = false ∧ ¬ c = emDash := by
  simp only [isTokenChar, Bool.and_eq_true, Bool.not_eq_true', bne_iff_ne, ne_eq] at h
  exact h

theorem pyStrip_no_space (l : List Char) (h : ∀ c ∈ l, isPySpace c = false) :
    pyStrip l = l := by
  have h1 : l.dropWhile isPySpace = l := by
    cases l with
    | nil => rfl
    | cons a t => simp [List.dropWhile_cons, h a (by simp)]
  have h2 : l.reverse.dropWhile isPySpace = l.reverse := by
    cases hrev : l.reverse with
    | nil => rfl
    | cons a t =>
      have ha : a ∈ l := by
        rw [← List.mem_reverse, hrev]; simp
      simp [List.dropWhile_cons, h a ha]
  simp [pyStrip, h1, h2]

theorem modernAfterG2_sep (E : List Char) (e : Char) (E' : List Char)
    (hE : E = e :: E') (he : isPySpace e = false)
    (hEnl : ∀ c ∈ E, (c != '\n') = true) :
    modernAfterG2 (' ' :: '—' :: ' ' :: E) = some E := by
  subst hE
  have hsp : isPySpace ' ' = true := by decide
  have hdash : isPySpace '—' = false := by decide
  have hnl : ¬ e = '\n' := by
    intro hc; rw [hc] at he; exact absurd he (by decide)
  have htw : List.takeWhile (fun d => d != '\n') (e :: E') = e :: E' :=
    List.takeWhile_eq_self_iff.mpr hEnl
  simp [modernAfterG2, wsThen, modernTailLoop, emDash,
    List.dropWhile_cons, List.takeWhile_cons, hsp, hdash, he, hnl, htw]

theorem modernNoStar_at (B E : List Char)
    (hB : ∀ c ∈ B, isTokenChar c = true) (hBne : B ≠ [])
    (hsep : modernAfterG2 (' ' :: '—' :: ' ' :: E) = some E) :
    modernNoStar (B ++ ' ' :: '—' :: ' ' :: E) = some (B, E) := by
  have hspace : isTokenChar ' ' = false := by decide
  have htake : (B ++ ' ' :: '—' :: ' ' :: E).takeWhile isTokenChar = B := by
    rw [takeWhile_append_all isTokenChar B _ hB]
    simp [List.takeWhile_cons, hspace]
  have hdrop : (B ++ ' ' :: '—' :: ' ' :: E).dropWhile isTokenChar =
      ' ' :: '—' :: ' ' :: E := by
    rw [dropWhile_append_all isTokenChar B _ hB]
    simp [List.dropWhile_cons, hspace]
  have hlen : B.length ≠ 0 := by
    simpa [List.length_eq_zero] using hBne
  simp [modernNoStar, htake, hdrop, hlen, hsep]

theorem modernNoStar_fail (S B E : List Char)
    (hS : ∀ c ∈ S, isTokenChar c = true)
    (hB : ∀ c ∈ B, isTokenChar c = true) (hBne : B ≠ []) :
    modernNoStar (S ++ ' ' :: (B ++ ' ' :: '—' :: ' ' :: E)) = none := by
  have hspace : isTokenChar ' ' = false := by decide
  have hsp : isPySpace ' ' = true := by decide
  cases S with
  | nil =>
    simp [modernNoStar, List.takeWhile_cons, hspace]
  | cons s S' =>
    obtain ⟨b, B', rfl⟩ : ∃ b B', B = b :: B' := by
      cases B with
      | nil => exact absurd rfl hBne
      | cons b B' => exact ⟨b, B', rfl⟩
    have hb := isTokenChar_spec b (hB b (by simp))
    have htake : ((s :: S') ++ (' ' :: ((b :: B') ++ ' ' :: '—' :: ' ' :: E))).takeWhile
        isTokenChar = s :: S' := by
      rw [takeWhile_append_all isTokenChar (s :: S') _ hS]
      simp [List.takeWhile_cons, hspace]
    have hdrop : ((s :: S') ++ (' ' :: ((b :: B') ++ ' ' :: '—' :: ' ' :: E))).dropWhile
        isTokenChar = ' ' :: ((b :: B') ++ ' ' :: '—' :: ' ' :: E) := by
      rw [dropWhile_append_all isTokenChar (s :: S') _ hS]
      simp [List.dropWhile_cons, hspace]
    simp only [List.cons_append] at htake hdrop ⊢
    simp [modernNoStar, htake, hdrop, modernAfterG2, wsThen,
      List.dropWhile_cons, hsp, hb.1, hb.2]

theorem modernMatchAt_fail (S B E : List Char)
    (hS : ∀ c ∈ S, isTokenChar c = true)
    (hB : ∀ c ∈ B, isTokenChar c = true) (hBne : B ≠ []) :
    modernMatchAt (S ++ ' ' :: (B ++ ' ' :: '—' :: ' ' :: E)) = none := by
  cases S with
  | nil =>
    have h0 := modernNoStar_fail [] B E (by simp) hB hBne
    simp only [List.nil_append] at h0 ⊢
    simp only [modernMatchAt]
    rw [if_neg (show ¬ (' ' = '*') from by decide), h0]
  | cons s S' =>
    have h1 := modernNoStar_fail (s :: S') B E hS hB hBne
    have h2 := modernNoStar_fail S' B E (fun c hc => hS c (by simp [hc])) hB hBne
    simp only [List.cons_append] at h1 ⊢
    simp only [modernMatchAt]
    by_cases hstar : s = '*'
    · rw [if_pos hstar, h2, h1]
    · rw [if_neg hstar, h1]

theorem modernMatchAt_at (B E : List Char)
    (hB : ∀ c ∈ B, isTokenChar c = true) (hBne : B ≠ [])
    (hBstar : B.head? ≠ some '*')
    (hns : modernNoStar (B ++ ' ' :: '—' :: ' ' :: E) = some (B, E)) :
    modernMatchAt (B ++ ' ' :: '—' :: ' ' :: E) = some ([], B, E) := by
  obtain ⟨b, B', rfl⟩ : ∃ b B', B = b :: B' := by
    cases B with
    | nil => exact absurd rfl hBne
    | cons b B' => exact ⟨b, B', rfl⟩
  have hb : ¬ b = '*' := by
    intro hc; exact hBstar (by simp [hc])
  simp only [List.cons_append] at hns ⊢
  simp only [modernMatchAt]
  rw [if_neg hb, hns]

theorem modernSearch_two_token (B E : List Char)
    (hB : ∀ c ∈ B, isTokenChar c = true) (hBne : B ≠ [])
    (hBstar : B.head? ≠ some '*')
    (e : Char) (E' : List Char) (hE : E = e :: E') (he : isPySpace e = false)
    (hEnl : ∀ c ∈ E, (c != '\n') = true) :
    ∀ A : List Char, (∀ c ∈ A, isTokenChar c = true) →
      modernSearch (A ++ ' ' :: (B ++ ' ' :: '—' :: ' ' :: E)) = some ([], B, E) := by
  have hsep := modernAfterG2_sep E e E' hE he hEnl
  have hns := modernNoStar_at B E hB hBne hsep
  have hat := modernMatchAt_at B E hB hBne hBstar hns
  have hatB : ∀ b B', B = b :: B' →
      modernMatchAt (b :: (B' ++ ' ' :: '—' :: ' ' :: E)) = some ([], b :: B', E) := by
    intro b B' hBeq
    subst hBeq
    simpa only [List.cons_append] using hat
  intro A
  induction A with
  | nil =>
    intro _
    have hfail := modernMatchAt_fail [] B E (by simp) hB hBne
    simp only [List.nil_append] at hfail ⊢
    obtain ⟨b, B', rfl⟩ : ∃ b B', B = b :: B' := by
      cases B with
      | nil => exact absurd rfl hBne
      | cons b B' => exact ⟨b, B', rfl⟩
    simp only [List.cons_append] at hfail ⊢
    simp only [modernSearch]
    rw [hfail, hatB b B' rfl]
  | cons a A' ih =>
    intro hA
    have hfail := modernMatchAt_fail (a :: A') B E hA hB hBne
    simp only [List.cons_append] at hfail ⊢
    simp only [modernSearch]
    rw [hfail]
    exact ih (fun c hc => hA c (by simp [hc]))

/-! ## Claim theorems -/

/-- C3: with tracking enabled, every query of `check_activity` from an
active state recomputes the activity flag as
`now - last_activity_time ≤ inactivity_threshold`; after an activity
event at time `T` a query at `T + threshold - 1` returns true and a
query at `T + threshold + 1` returns false; and once a query has
returned false every subsequent query returns false until a new
activity event. -/
theorem tracker_query_semantics (t : UserActivityTracker)
    (henabled : t.tracking_enabled = true) :
    (∀ now : Int, t.is_active = true →
        (check_activity now t).1 =
          decide (now - t.last_activity_time ≤ t.inactivity_threshold))
    ∧ (∀ T : Int,
        (check_activity (T + t.inactivity_threshold - 1) (on_activity T t)).1 = true
        ∧ (check_activity (T + t.inactivity_threshold + 1) (on_activity T t)).1 = false)
    ∧ (∀ now : Int, (check_activity now t).1 = false →
        ∀ (ns : List Int), ∀ b ∈ (runChecks (check_activity now t).2 ns).2, b = false) := by
  refine ⟨?_, ?_, ?_⟩
  · intro now hact
    simp only [check_activity, henabled]
    by_cases hts : now - t.last_activity_time > t.inactivity_threshold
    · have : ¬ (now - t.last_activity_time ≤ t.inactivity_threshold) := not_le.mpr hts
      simp [hts, this]
    · have : now - t.last_activity_time ≤ t.inactivity_threshold := not_lt.mp hts
      simp [hts, this, hact]
  · intro T
    constructor
    · simp only [check_activity, on_activity, henabled]
      rw [if_neg (by simp), if_neg (by omega)]
    · simp only [check_activity, on_activity, henabled]
      rw [if_neg (by simp), if_pos (by omega)]
  · intro now hfalse ns b hb
    have h2 := check_activity_false_state t now henabled hfalse
    exact runChecks_all_false ns _ h2.2 h2.1 b hb

/-- C3 witness: concrete tracker with threshold 60, activity at time 5,
queries at 64 and 66. -/
theorem tracker_query_semantics_witness :
    (UserActivityTracker.init true 60 0).tracking_enabled = true
    ∧ (check_activity ((5 : Int) + (UserActivityTracker.init true 60 0).inactivity_threshold - 1)
        (on_activity 5 (UserActivityTracker.init true 60 0))).1 = true
    ∧ (check_activity ((5 : Int) + (UserActivityTracker.init true 60 0).inactivity_threshold + 1)
        (on_activity 5 (UserActivityTracker.init true 60 0))).1 = false :=
  ⟨rfl, ((tracker_query_semantics _ rfl).2.1 5).1, ((tracker_query_semantics _ rfl).2.1 5).2⟩

/-- C9: with the input-listening capability unavailable at
construction, the tracker runs in a degraded always-active mode: the
flag `tracking_enabled` is recorded false at construction, every
`check_activity` query returns true without touching the state, and
`get_time_since_activity` returns 0. -/
theorem tracker_degraded_mode (t : UserActivityTracker) (now : Int)
    (h : t.tracking_enabled = false) :
    (check_activity now t).1 = true
    ∧ (check_activity now t).2 = t
    ∧ get_time_since_activity now t = 0
    ∧ ∀ threshold t0 : Int,
        (UserActivityTracker.init false threshold t0).tracking_enabled = false := by
  refine ⟨?_, ?_, ?_, ?_⟩
  · simp [check_activity, h]
  · simp [check_activity, h]
  · simp [get_time_since_activity, h]
  · intro threshold t0; rfl

/-- C9 witness. -/
theorem tracker_degraded_mode_witness :
    (UserActivityTracker.init false 60 0).tracking_enabled = false
    ∧ (check_activity 100 (UserActivityTracker.init false 60 0)).1 = true
    ∧ get_time_since_activity 100 (UserActivityTracker.init false 60 0) = 0 :=
  ⟨rfl, (tracker_degraded_mode _ 100 rfl).1, (tracker_degraded_mode _ 100 rfl).2.2.1⟩

/-- C1: with the sink executable present, `send_heartbeat` takes the
send branch exactly when the file changed or (the elapsed time
strictly exceeds the frequency and the user is active); a file change
emits regardless of the activity flag, and with the same file an
elapsed time exactly equal to the frequency does not emit. -/
theorem scheduler_decision_iff (cliExists spawnOk : Bool) (file project_name : String)
    (now : Int) (st : KiCadWakaTime) (hcli : cliExists = true) :
    ((send_heartbeat cliExists spawnOk file project_name now st).2.1 = true ↔
      (some file ≠ st.last_file ∨
        (now - st.last_heartbeat_at > st.heartbeat_frequency ∧
          (check_activity now st.activity_tracker).1 = true)))
    ∧ (some file ≠ st.last_file →
        (send_heartbeat cliExists spawnOk file project_name now st).2.1 = true)
    ∧ (some file = st.last_file →
        now - st.last_heartbeat_at = st.heartbeat_frequency →
        (send_heartbeat cliExists spawnOk file project_name now st).2.1 = false) := by
  subst hcli
  have hiff : (send_heartbeat true spawnOk file project_name now st).2.1 = true ↔
      (some file ≠ st.last_file ∨
        (now - st.last_heartbeat_at > st.heartbeat_frequency ∧
          (check_activity now st.activity_tracker).1 = true)) := by
    simp only [send_heartbeat]
    by_cases hP : (some file ≠ st.last_file ∨
        (now - st.last_heartbeat_at > st.heartbeat_frequency ∧
          (check_activity now st.activity_tracker).1 = true))
    · simp only [hP, iff_true]
      rw [if_neg (by simp)]
      rw [if_pos (by simp [hP])]
      by_cases hd : st.dry_run <;> simp [hd]
    · simp only [hP, iff_false]
      rw [if_neg (by simp)]
      rw [if_neg (by simp [hP])]
      simp
  refine ⟨hiff, ?_, ?_⟩
  · intro hfile
    exact hiff.mpr (Or.inl hfile)
  · intro hfile hfreq
    rcases h : (send_heartbeat true spawnOk file project_name now st).2.1 with _ | _
    · rfl
    · rcases hiff.mp h with hc | hc
      · exact absurd hfile hc
      · omega

/-- C1 witness: fresh state (no previous file), active user, file
classified: the send branch is taken. -/
theorem scheduler_decision_iff_witness :
    (send_heartbeat true true "f" "p" 100
      ⟨0, none, 60, false, UserActivityTracker.init true 60 0⟩).2.1 = true :=
  (scheduler_decision_iff true true "f" "p" 100
    ⟨0, none, 60, false, UserActivityTracker.init true 60 0⟩ rfl).2.1 (by decide)

/-- C2 counterexample: a tick on which the decision rule says to emit
(the file changed), but the sink executable is missing in real mode:
`send_heartbeat` returns before evaluating the rule and the scheduler
state is NOT updated as it would be on a successful send. -/
theorem missing_cli_freezes_state_cex :
    (some "b" ≠
      (⟨0, some "a", 60, false, UserActivityTracker.init true 60 0⟩ : KiCadWakaTime).last_file)
    ∧ (send_heartbeat false true "b" "p" 100
        ⟨0, some "a", 60, false, UserActivityTracker.init true 60 0⟩).1 =
        ⟨0, some "a", 60, false, UserActivityTracker.init true 60 0⟩
    ∧ (send_heartbeat false true "b" "p" 100
        ⟨0, some "a", 60, false, UserActivityTracker.init true 60 0⟩).1.last_file ≠ some "b"
    ∧ (send_heartbeat false true "b" "p" 100
        ⟨0, some "a", 60, false, UserActivityTracker.init true 60 0⟩).1.last_heartbeat_at ≠ 100 := by
  refine ⟨by decide, by decide, by decide, by decide⟩

/-- C2 amended: a spawn failure of the external sender is swallowed
and leaves the new state and the decision exactly as on a successful
spawn; but when the executable is missing and dry-run is off,
`send_heartbeat` returns early with the state unchanged (still
non-fatal: the call returns normally). -/
theorem spawn_failure_state_update (cliExists : Bool) (file project_name : String)
    (now : Int) (st : KiCadWakaTime) :
    ((send_heartbeat cliExists false file project_name now st).1 =
      (send_heartbeat cliExists true file project_name now st).1)
    ∧ ((send_heartbeat cliExists false file project_name now st).2.1 =
      (send_heartbeat cliExists true file project_name now st).2.1)
    ∧ (cliExists = false → st.dry_run = false →
        send_heartbeat cliExists false file project_name now st = (st, false, false)) := by
  refine ⟨?_, ?_, ?_⟩
  · simp only [send_heartbeat]
    split
    · rfl
    · split
      · split <;> rfl
      · rfl
  · simp only [send_heartbeat]
    split
    · rfl
    · split
      · split <;> rfl
      · rfl
  · intro h1 h2
    simp [send_heartbeat, h1, h2]

/-- C2 amended witness: missing executable in real mode leaves the
state untouched. -/
theorem spawn_failure_state_update_witness :
    send_heartbeat false false "f" "p" 100
      ⟨0, none, 60, false, UserActivityTracker.init true 60 0⟩ =
      (⟨0, none, 60, false, UserActivityTracker.init true 60 0⟩, false, false) :=
  (spawn_failure_state_update false "f" "p" 100
    ⟨0, none, 60, false, UserActivityTracker.init true 60 0⟩).2.2 rfl rfl

/-- C8: the scheduler fields are written only on a tick that takes the
send branch: when the decision is false both `last_heartbeat_at` and
`last_file` are unchanged, and when it is true they are set to the
tick's `now` and file, independently of the dispatch outcome. -/
theorem scheduler_state_frame (cliExists spawnOk : Bool) (file project_name : String)
    (now : Int) (st : KiCadWakaTime) :
    ((send_heartbeat cliExists spawnOk file project_name now st).2.1 = false →
      (send_heartbeat cliExists spawnOk file project_name now st).1.last_heartbeat_at =
        st.last_heartbeat_at
      ∧ (send_heartbeat cliExists spawnOk file project_name now st).1.last_file = st.last_file)
    ∧ ((send_heartbeat cliExists spawnOk file project_name now st).2.1 = true →
      (send_heartbeat cliExists spawnOk file project_name now st).1.last_heartbeat_at = now
      ∧ (send_heartbeat cliExists spawnOk file project_name now st).1.last_file = some file) := by
  constructor
  · intro hdec
    by_cases hcli : cliExists = false
    · by_cases hd : st.dry_run = false
      · simp [send_heartbeat, hcli, hd]
      · by_cases hP : some file ≠ st.last_file ∨
            (now - st.last_heartbeat_at > st.heartbeat_frequency ∧
              (check_activity now st.activity_tracker).1 = true)
        · simp [send_heartbeat, hcli, hd, hP] at hdec
        · simp [send_heartbeat, hcli, hd, hP]
    · by_cases hP : some file ≠ st.last_file ∨
          (now - st.last_heartbeat_at > st.heartbeat_frequency ∧
            (check_activity now st.activity_tracker).1 = true)
      · by_cases hd : st.dry_run = true
        · simp [send_heartbeat, hcli, hd, hP] at hdec
        · simp [send_heartbeat, hcli, hd, hP] at hdec
      · simp [send_heartbeat, hcli, hP]
  · intro hdec
    by_cases hcli : cliExists = false
    · by_cases hd : st.dry_run = false
      · simp [send_heartbeat, hcli, hd] at hdec
      · by_cases hP : some file ≠ st.last_file ∨
            (now - st.last_heartbeat_at > st.heartbeat_frequency ∧
              (check_activity now st.activity_tracker).1 = true)
        · simp [send_heartbeat, hcli, hd, hP]
        · simp [send_heartbeat, hcli, hd, hP] at hdec
    · by_cases hP : some file ≠ st.last_file ∨
          (now - st.last_heartbeat_at > st.heartbeat_frequency ∧
            (check_activity now st.activity_tracker).1 = true)
      · by_cases hd : st.dry_run = true <;>
          simp [send_heartbeat, hcli, hd, hP]
      · simp [send_heartbeat, hcli, hP] at hdec

/-- C5: whenever the legacy pattern matches the title of a recognized
CAD window, `get_active_kicad_window` returns the matched filename as
the path (relative, unresolved: the resolver is never consulted) and
the filename with its extension stripped (`os.path.splitext`) as the
project name. -/
theorem classify_legacy (resolve : String → Option String)
    (window_title exe_name : String) (g : List Char)
    (hK : (kicadTitleKeys.any (fun k => containsSub window_title k) ||
      kicadExeKeys.any (fun k => containsSub (pyLower exe_name) k)) = true)
    (hleg : legacySearch window_title.toList = some g) :
    get_active_kicad_window resolve window_title exe_name =
      some (String.mk g, splitextRoot (String.mk g)) := by
  simp only [String.toList] at hleg
  simp [get_active_kicad_window, String.toList, hK, hleg]

/-- C5 witness: title `board.kicad_pcb - PCB Editor`, process
`pcbnew.exe`: classify returns `(board.kicad_pcb, board)` for any
resolver. -/
theorem classify_legacy_witness :
    get_active_kicad_window (fun _ => none)
      "board.kicad_pcb - PCB Editor" "pcbnew.exe" =
      some ("board.kicad_pcb", "board") := by
  have h := classify_legacy (fun _ => none) "board.kicad_pcb - PCB Editor"
    "pcbnew.exe" ("board.kicad_pcb".toList) (by decide) (by decide)
  rw [h]; decide

/-- C7 counterexample: the legacy and the modern pattern are not
mutually exclusive: the title `board.kicad_pcb - x — y` matches both
(`re.search` finds `board.kicad_pcb - ` for the legacy pattern and
`x — y` for the modern one). -/
theorem patterns_overlap_cex :
    (legacySearch "board.kicad_pcb - x — y".toList).isSome = true ∧
      (modernSearch "board.kicad_pcb - x — y".toList).isSome = true :=
  ⟨by decide, by decide⟩

/-- C7 amended: the legacy pattern is tried before the modern pattern
and the first match wins: on a title that ALSO matches the modern
pattern, the classification is still the legacy one. -/
theorem legacy_first_match_wins (resolve : String → Option String)
    (window_title exe_name : String) (g : List Char)
    (m : List Char × List Char × List Char)
    (hK : (kicadTitleKeys.any (fun k => containsSub window_title k) ||
      kicadExeKeys.any (fun k => containsSub (pyLower exe_name) k)) = true)
    (hleg : legacySearch window_title.toList = some g)
    (hmod : modernSearch window_title.toList = some m) :
    get_active_kicad_window resolve window_title exe_name =
      some (String.mk g, splitextRoot (String.mk g)) := by
  simp only [String.toList] at hleg
  simp [get_active_kicad_window, String.toList, hK, hleg]

/-- C7 amended witness: on the both-matching title the legacy result
is returned. -/
theorem legacy_first_match_wins_witness :
    get_active_kicad_window (fun _ => none)
      "board.kicad_pcb - x — y" "pcbnew.exe" =
      some ("board.kicad_pcb", "board") := by
  have h := legacy_first_match_wins (fun _ => none) "board.kicad_pcb - x — y"
    "pcbnew.exe" ("board.kicad_pcb".toList) ([], "x".toList, "y".toList)
    (by decide) (by decide) (by decide)
  rw [h]; decide

/-- C4: on a modern-format title of a recognized CAD window, when the
project-directory resolver succeeds, classify returns the resolved
directory joined by a backslash to the project name plus the extension
of the fixed editor-type table, with the matched project name; the
table maps PCB Editor to `.kicad_pcb`, Schematic Editor to
`.kicad_sch`, the bare application name to `.kicad_pro`, Symbol Editor
to `.kicad_sym` and Footprint Editor to `.kicad_mod`. -/
theorem classify_modern_resolved (resolve : String → Option String)
    (window_title exe_name : String) (g1 g2 g3 : List Char) (dir : String)
    (hK : (kicadTitleKeys.any (fun k => containsSub window_title k) ||
      kicadExeKeys.any (fun k => containsSub (pyLower exe_name) k)) = true)
    (hleg : legacySearch window_title.toList = none)
    (hmod : modernSearch window_title.toList = some (g1, g2, g3))
    (hres : resolve (String.mk (pyStrip g2)) = some dir) :
    get_active_kicad_window resolve window_title exe_name =
      some (dir ++ "\\" ++ String.mk (pyStrip g2) ++
          extForEditorType (String.mk (pyStrip g3)),
        String.mk (pyStrip g2))
    ∧ extForEditorType "PCB Editor" = ".kicad_pcb"
    ∧ extForEditorType "Schematic Editor" = ".kicad_sch"
    ∧ extForEditorType "KiCad" = ".kicad_pro"
    ∧ extForEditorType "Symbol Editor" = ".kicad_sym"
    ∧ extForEditorType "Footprint Editor" = ".kicad_mod" := by
  refine ⟨?_, by decide, by decide, by decide, by decide, by decide⟩
  simp only [String.toList] at hleg hmod
  simp [get_active_kicad_window, String.toList, hK, hleg, hmod, hres, pyStrOpt]

/-- C4 witness: the end-to-end scenario of the claim: title
`myproj — PCB Editor` with the resolver returning
`C:\projects\myproj`. -/
theorem classify_modern_resolved_witness :
    get_active_kicad_window
      (fun p => if p = "myproj" then some "C:\\projects\\myproj" else none)
      "myproj — PCB Editor" "" =
      some ("C:\\projects\\myproj\\myproj.kicad_pcb", "myproj") := by
  have h := (classify_modern_resolved
    (fun p => if p = "myproj" then some "C:\\projects\\myproj" else none)
    "myproj — PCB Editor" "" [] ("myproj".toList) ("PCB Editor".toList)
    "C:\\projects\\myproj" (by decide) (by decide) (by decide) (by decide)).1
  rw [h]; decide

/-- C6: on a modern-format title of a recognized CAD window, when the
project-directory resolver fails, classify still returns a best-effort
`some` result whose path embeds the null-directory marker (`str(None)`
is the literal string `None`) joined to the project name and the
mapped extension. -/
theorem classify_modern_unresolved (resolve : String → Option String)
    (window_title exe_name : String) (g1 g2 g3 : List Char)
    (hK : (kicadTitleKeys.any (fun k => containsSub window_title k) ||
      kicadExeKeys.any (fun k => containsSub (pyLower exe_name) k)) = true)
    (hleg : legacySearch window_title.toList = none)
    (hmod : modernSearch window_title.toList = some (g1, g2, g3))
    (hres : resolve (String.mk (pyStrip g2)) = none) :
    get_active_kicad_window resolve window_title exe_name =
      some ("None" ++ "\\" ++ String.mk (pyStrip g2) ++
          extForEditorType (String.mk (pyStrip g3)),
        String.mk (pyStrip g2)) := by
  simp only [String.toList] at hleg hmod
  simp [get_active_kicad_window, String.toList, hK, hleg, hmod, hres, pyStrOpt]

/-- C6 witness: resolver failure on `myproj — PCB Editor` yields the
malformed but non-null path `None\myproj.kicad_pcb`. -/
theorem classify_modern_unresolved_witness :
    get_active_kicad_window (fun _ => none) "myproj — PCB Editor" "" =
      some ("None\\myproj.kicad_pcb", "myproj") := by
  have h := classify_modern_unresolved (fun _ => none)
    "myproj — PCB Editor" "" [] ("myproj".toList) ("PCB Editor".toList)
    (by decide) (by decide) (by decide) (by decide)
  rw [h]; decide

/-- C10: on a modern-format title whose project name consists of two
whitespace-separated tokens, only the final token before the em-dash
is captured: the project-name group `[^\s—]+` cannot cross whitespace,
so the leading token is silently dropped from both the project name
and the constructed path. -/
theorem modern_project_name_truncation (resolve : String → Option String)
    (exe_name : String) (A B E : List Char)
    (hA : ∀ c ∈ A, isTokenChar c = true)
    (hB : ∀ c ∈ B, isTokenChar c = true) (hBne : B ≠ [])
    (hBstar : B.head? ≠ some '*')
    (e : Char) (E' : List Char) (hE : E = e :: E') (he : isPySpace e = false)
    (hEnl : ∀ c ∈ E, (c != '\n') = true)
    (hK : (kicadTitleKeys.any (fun k =>
        containsSub (String.mk (A ++ ' ' :: (B ++ ' ' :: '—' :: ' ' :: E))) k) ||
      kicadExeKeys.any (fun k => containsSub (pyLower exe_name) k)) = true)
    (hleg : legacySearch (A ++ ' ' :: (B ++ ' ' :: '—' :: ' ' :: E)) = none) :
    get_active_kicad_window resolve
        (String.mk (A ++ ' ' :: (B ++ ' ' :: '—' :: ' ' :: E))) exe_name =
      some (pyStrOpt (resolve (String.mk B)) ++ "\\" ++ String.mk B ++
          extForEditorType (String.mk (pyStrip E)), String.mk B) := by
  have hmod := modernSearch_two_token B E hB hBne hBstar e E' hE he hEnl A hA
  have hstrip : pyStrip B = B :=
    pyStrip_no_space B (fun c hc => (isTokenChar_spec c (hB c hc)).1)
  simp [get_active_kicad_window, String.toList, hK, hleg, hmod, hstrip]

/-- C10 witness: title `my proj — PCB Editor` classifies with project
name `proj`, the leading token `my` silently dropped. -/
theorem modern_project_name_truncation_witness :
    get_active_kicad_window (fun _ => none) "my proj — PCB Editor" "" =
      some ("None\\proj.kicad_pcb", "proj") := by
  have h := modern_project_name_truncation (fun _ => none) ""
    ("my".toList) ("proj".toList) ("PCB Editor".toList)
    (by decide) (by decide) (by decide) (by decide)
    'P' ("CB Editor".toList) (by decide) (by decide) (by decide)
    (by decide) (by decide)
  have hs : "my proj — PCB Editor" =
      String.mk ("my".toList ++ ' ' :: ("proj".toList ++ ' ' :: '—' :: ' ' :: "PCB Editor".toList)) := by
    decide
  rw [hs, h]
  decide

/-- C8 witness: same file, elapsed time below frequency: no emission,
fields unchanged. -/
theorem scheduler_state_frame_witness :
    (send_heartbeat true true "f" "p" 30
      ⟨0, some "f", 60, false, UserActivityTracker.init true 60 0⟩).1.last_heartbeat_at = 0
    ∧ (send_heartbeat true true "f" "p" 30
      ⟨0, some "f", 60, false, UserActivityTracker.init true 60 0⟩).1.last_file = some "f" :=
  (scheduler_state_frame true true "f" "p" 30
    ⟨0, some "f", 60, false, UserActivityTracker.init true 60 0⟩).1 (by decide)
